import Mathlib

/-!
Verification of the per-thread cached CSPRNG handle (`src/rngs/thread.rs`).

The file embeds the thread-local cached generator: the `ThreadRng` handle,
the `THREAD_RNG_KEY` lazy thread-local slot with its panicking initializer,
the reseed threshold constant, and the forwarding generation operations
(`next_u32`, `next_u64`, `fill_bytes`, `try_fill_bytes`).

The deterministic Core generator, the OS entropy provider and the
`ReseedingRng` wrapper are external collaborators whose code is not part of
the repository slice; they are modelled from the specification (each such
definition is marked `Modelled from the spec:`).  The entropy provider is
modelled as a finite list of seed values: drawing a seed takes the head and
an empty list means the provider is unavailable.
-/

namespace RandThread

/-- Modelled from the spec: the opaque Seedable Core Generator capability
(`seed_from(entropy_provider) -> Core | Failure`, `next_u32`, `next_u64`,
`fill_bytes`).  The concrete PRNG algorithm is out of scope, so a simple
deterministic state-stepping generator stands in: the state is a natural
number, each produced byte is the state reduced mod 256, and producing a
byte advances the state. -/
structure Core where
  state : Nat
deriving DecidableEq, Repr

/-- Modelled from the spec: deterministic construction of a Core from seed
material. -/
def Core.fromSeed (seed : Nat) : Core :=
  ⟨seed⟩

/-- Modelled from the spec: produce one byte and advance the Core state. -/
def Core.genByte (c : Core) : Nat × Core :=
  (c.state % 256, ⟨c.state + 1⟩)

/-- Modelled from the spec: fill a buffer of `n` bytes from the Core,
returning the bytes and the advanced Core. -/
def Core.genBytes : Core → Nat → List Nat × Core
  | c, 0 => ([], c)
  | c, n + 1 =>
    (c.genByte.1 :: (c.genByte.2.genBytes n).1, (c.genByte.2.genBytes n).2)

/-- Modelled from the spec: the fallible OS entropy provider.  It is a
stream of fresh seed values; an exhausted (empty) stream models an
unavailable entropy source. -/
def drawSeed : List Nat → Option (Nat × List Nat)
  | [] => none
  | s :: rest => some (s, rest)

/-- Embedding of `Core::from_rng(OsRng)`: seed a fresh Core from the entropy
provider, failing when the provider is unavailable. -/
def Core.from_rng (entropy : List Nat) : Option (Core × List Nat) :=
  (drawSeed entropy).map fun p => (Core.fromSeed p.1, p.2)

/-- Embedding of `THREAD_RNG_RESEED_THRESHOLD`: number of generated bytes
after which to reseed the thread RNG (`1024 * 64`). -/
def THREAD_RNG_RESEED_THRESHOLD : Nat := 1024 * 64

/-- Modelled from the spec: the Reseeding Wrapper capability.  It holds the
Core generator state, the byte-count threshold and the running count of
bytes generated since the last reseed. -/
structure ReseedingRng where
  core : Core
  threshold : Nat
  bytesGenerated : Nat
deriving DecidableEq, Repr

/-- Embedding of `ReseedingRng::new(core, threshold, OsRng)`: a freshly
seeded wrapper with a zero byte counter. -/
def ReseedingRng.new (core : Core) (threshold : Nat) : ReseedingRng :=
  ⟨core, threshold, 0⟩

/-- Modelled from the spec: one generation request of `n` bytes through the
Reseeding Wrapper.  When at least `threshold` bytes have been generated
since the last reseed, the request first reseeds the Core from the entropy
provider and resets the byte counter, then produces output; reseed failure
(entropy unavailable) is surfaced as a generation failure.  Returns the
produced bytes, the updated wrapper, the remaining entropy, and the number
of reseeds performed during the call. -/
def ReseedingRng.generate (rng : ReseedingRng) (entropy : List Nat) (n : Nat) :
    Option (List Nat × ReseedingRng × List Nat × Nat) :=
  if rng.threshold ≤ rng.bytesGenerated then
    match drawSeed entropy with
    | none => none
    | some (seed, entropy1) =>
      some (((Core.fromSeed seed).genBytes n).1,
        ⟨((Core.fromSeed seed).genBytes n).2, rng.threshold, n⟩, entropy1, 1)
  else
    some ((rng.core.genBytes n).1,
      ⟨(rng.core.genBytes n).2, rng.threshold, rng.bytesGenerated + n⟩,
      entropy, 0)

/-- Assemble a little-endian byte list into a natural number (used to model
the 32- and 64-bit word outputs). -/
def bytesToNat : List Nat → Nat
  | [] => 0
  | b :: bs => b + 256 * bytesToNat bs

/-- A panic (thread abort).  `initFailure` is the
`could not initialize thread_rng` panic of the `THREAD_RNG_KEY` initializer;
`accessDuringTeardown` is the panic of `LocalKey::with` when the
thread-local value is being destroyed; `reseedFailure` is the abort the spec
prescribes when the infallible path hits an entropy failure at a reseed
boundary. -/
inductive Panic where
  | initFailure (msg : String)
  | accessDuringTeardown
  | reseedFailure
deriving DecidableEq, Repr

/-- The catchable errors of the fallible path: `lookupFailure` wraps the
`try_with` access error (teardown race) via `Error::new`; `reseedFailure`
is a generation failure propagated from the wrapper. -/
inductive RandError where
  | lookupFailure
  | reseedFailure
deriving DecidableEq, Repr

/-- State of one thread: the remaining entropy stream, the lazily
initialized thread-local slot (`THREAD_RNG_KEY`), whether the thread-local
storage is being torn down, and a ghost counter of how many times the
initializer has run. -/
structure ThreadState where
  entropy : List Nat
  cache : Option ReseedingRng
  destroyed : Bool
  initCount : Nat
deriving DecidableEq, Repr

/-- The diagnostic of the initializer panic
(`could not initialize thread_rng: ...`). -/
def threadRngInitMsg : String :=
  "could not initialize thread_rng: entropy source unavailable"

/-- Embedding of the `THREAD_RNG_KEY` initializer: seed a Core from the
entropy provider with `Core::from_rng(OsRng)`, panicking with a descriptive
message on failure, and wrap it with `ReseedingRng::new` at
`THREAD_RNG_RESEED_THRESHOLD`. -/
def initThreadRngKey (entropy : List Nat) :
    Except String (ReseedingRng × List Nat) :=
  match Core.from_rng entropy with
  | none => .error threadRngInitMsg
  | some (c, e1) => .ok (ReseedingRng.new c THREAD_RNG_RESEED_THRESHOLD, e1)

/-- Lazy access to the thread-local slot: return the cached wrapper, or run
the initializer on first access (recording it in the ghost counter);
initializer failure is a panic. -/
def lookupOrInit (s : ThreadState) : Except Panic (ReseedingRng × ThreadState) :=
  match s.cache with
  | some rng => .ok (rng, s)
  | none =>
    match initThreadRngKey s.entropy with
    | .error msg => .error (.initFailure msg)
    | .ok (rng, e1) =>
      .ok (rng, ⟨e1, some rng, s.destroyed, s.initCount + 1⟩)

/-- Embedding of `THREAD_RNG_KEY.with`: panics when the thread-local value
is being destroyed, otherwise performs the lazy lookup. -/
def withKey (s : ThreadState) : Except Panic (ReseedingRng × ThreadState) :=
  if s.destroyed then .error .accessDuringTeardown else lookupOrInit s

/-- Embedding of `ThreadRng`: the handle returned by `thread_rng`.  It
carries no data — in the source its only field is a
`PhantomData<*mut ()>` marker making it neither `Send` nor `Sync`. -/
structure ThreadRng where
deriving DecidableEq, Repr

/-- Embedding of `thread_rng()`: construct the zero-data handle.  The body
only builds the marker struct; it performs no thread-local access. -/
def thread_rng : ThreadRng :=
  ⟨⟩

/-- Embedding of `<ThreadRng as Default>::default()`, which calls
`thread_rng()`. -/
def ThreadRng.default : ThreadRng :=
  thread_rng

/-- State-threaded reading of the body of `thread_rng()`: the body touches
no thread state, so it returns the handle and leaves the state unchanged. -/
def thread_rng_run (s : ThreadState) : ThreadRng × ThreadState :=
  (thread_rng, s)

/-- Shared forwarding path of the infallible operations: look up the cached
wrapper via `with` (panicking on teardown), generate `n` bytes through it
(aborting on reseed failure, per the spec's infallible-path contract), and
store the updated wrapper back in the slot. -/
def generateVia (s : ThreadState) (n : Nat) :
    Except Panic (List Nat × ThreadState) :=
  match withKey s with
  | .error p => .error p
  | .ok (rng, s1) =>
    match rng.generate s1.entropy n with
    | none => .error .reseedFailure
    | some (bs, rng1, e1, _) =>
      .ok (bs, ⟨e1, some rng1, s1.destroyed, s1.initCount⟩)

/-- Embedding of `RngCore::next_u32` for `ThreadRng`: forwards to the
thread-local wrapper through `THREAD_RNG_KEY.with`. -/
def ThreadRng.next_u32 (_h : ThreadRng) (s : ThreadState) :
    Except Panic (Nat × ThreadState) :=
  match generateVia s 4 with
  | .error p => .error p
  | .ok (bs, s1) => .ok (bytesToNat bs, s1)

/-- Embedding of `RngCore::next_u64` for `ThreadRng`: forwards to the
thread-local wrapper through `THREAD_RNG_KEY.with`. -/
def ThreadRng.next_u64 (_h : ThreadRng) (s : ThreadState) :
    Except Panic (Nat × ThreadState) :=
  match generateVia s 8 with
  | .error p => .error p
  | .ok (bs, s1) => .ok (bytesToNat bs, s1)

/-- Embedding of `RngCore::fill_bytes` for `ThreadRng`: fill a buffer of
`n` bytes through the thread-local wrapper via `THREAD_RNG_KEY.with`. -/
def ThreadRng.fill_bytes (_h : ThreadRng) (s : ThreadState) (n : Nat) :
    Except Panic (List Nat × ThreadState) :=
  generateVia s n

/-- Outcome of the fallible fill operation: success with the produced
bytes, a catchable error (`Err` at the call site), or a panic (only the
initializer can still panic inside `try_with`). -/
inductive TryFillOutcome where
  | ok (bytes : List Nat) (s : ThreadState)
  | err (e : RandError) (s : ThreadState)
  | panicked (p : Panic)
deriving DecidableEq, Repr

/-- Embedding of `RngCore::try_fill_bytes` for `ThreadRng`:
`THREAD_RNG_KEY.try_with` turns the teardown race into a catchable
`Err(Error::new(AccessError))` instead of a panic; inside the closure the
wrapper's fallible generation runs, whose failure is propagated as a
generation error. -/
def ThreadRng.try_fill_bytes (_h : ThreadRng) (s : ThreadState) (n : Nat) :
    TryFillOutcome :=
  if s.destroyed then .err .lookupFailure s
  else
    match lookupOrInit s with
    | .error p => .panicked p
    | .ok (rng, s1) =>
      match rng.generate s1.entropy n with
      | none => .err .reseedFailure s1
      | some (bs, rng1, e1, _) =>
        .ok bs ⟨e1, some rng1, s1.destroyed, s1.initCount⟩

/-- A generation request (which of the three infallible operations). -/
inductive Op where
  | u32
  | u64
  | fill (n : Nat)
deriving DecidableEq, Repr

/-- Output of one generation request. -/
inductive Output where
  | word (v : Nat)
  | bytes (bs : List Nat)
deriving DecidableEq, Repr

/-- Run one infallible generation request through a handle. -/
def runOp (h : ThreadRng) (op : Op) (s : ThreadState) :
    Except Panic (Output × ThreadState) :=
  match op with
  | .u32 =>
    match h.next_u32 s with
    | .error p => .error p
    | .ok (v, s1) => .ok (.word v, s1)
  | .u64 =>
    match h.next_u64 s with
    | .error p => .error p
    | .ok (v, s1) => .ok (.word v, s1)
  | .fill n =>
    match h.fill_bytes s n with
    | .error p => .error p
    | .ok (bs, s1) => .ok (.bytes bs, s1)

/-- Run a sequence of generation requests, each through its own handle
(an interleaving of calls across possibly many handles of one thread). -/
def runSeq : List (ThreadRng × Op) → ThreadState →
    Except Panic (List Output × ThreadState)
  | [], s => .ok ([], s)
  | (h, op) :: rest, s =>
    match runOp h op s with
    | .error p => .error p
    | .ok (o, s1) =>
      match runSeq rest s1 with
      | .error p => .error p
      | .ok (os, s2) => .ok (o :: os, s2)

/-- Update one thread's state in a world of per-thread states. -/
def updateWorld (w : Nat → ThreadState) (t : Nat) (st : ThreadState) :
    Nat → ThreadState :=
  fun t1 => if t1 = t then st else w t1

/-- Run one generation request on thread `t` of a world: the request reads
and writes only thread `t`'s own thread-local state. -/
def runOpOn (w : Nat → ThreadState) (t : Nat) (h : ThreadRng) (op : Op) :
    Except Panic (Output × (Nat → ThreadState)) :=
  match runOp h op (w t) with
  | .error p => .error p
  | .ok (o, s1) => .ok (o, updateWorld w t s1)

/-- A thread state whose cached wrapper (if any) carries the fixed reseed
threshold constant. -/
def thresholdOk (s : ThreadState) : Prop :=
  ∀ r, s.cache = some r → r.threshold = THREAD_RNG_RESEED_THRESHOLD

/-- Ghost-counter invariant: the slot is initialized exactly when the
initializer has run exactly once, and it never runs more than once. -/
def initInv (s : ThreadState) : Prop :=
  (s.cache.isSome = true ↔ s.initCount = 1) ∧ s.initCount ≤ 1

/-! ## Helper lemmas -/

theorem Core.genBytes_length (c : Core) (n : Nat) :
    ((c.genBytes n).1).length = n := by
  induction n generalizing c with
  | zero => rfl
  | succ n ih => simp [Core.genBytes, ih]

theorem ThreadRng.eq_thread_rng (h : ThreadRng) : h = thread_rng := rfl

/-- Any wrapper returned inside a successful `generate` call has the same
threshold as the input wrapper, and the produced byte list has the
requested length. -/
theorem ReseedingRng.generate_ok (rng : ReseedingRng) (entropy : List Nat)
    (n : Nat) (bs : List Nat) (rng1 : ReseedingRng) (e1 : List Nat) (k : Nat)
    (hg : rng.generate entropy n = some (bs, rng1, e1, k)) :
    bs.length = n ∧ rng1.threshold = rng.threshold := by
  unfold ReseedingRng.generate at hg
  split at hg
  · cases hdraw : drawSeed entropy with
    | none => rw [hdraw] at hg; exact absurd hg (by simp)
    | some p =>
      rw [hdraw] at hg
      obtain ⟨seed, e2⟩ := p
      simp only [Option.some.injEq, Prod.mk.injEq] at hg
      obtain ⟨h1, h2, _, _⟩ := hg
      subst h1; subst h2
      exact ⟨Core.genBytes_length _ n, rfl⟩
  · simp only [Option.some.injEq, Prod.mk.injEq] at hg
    obtain ⟨h1, h2, _, _⟩ := hg
    subst h1; subst h2
    exact ⟨Core.genBytes_length _ n, rfl⟩

theorem runSeq_map_thread_rng (hs : List (ThreadRng × Op)) (s : ThreadState) :
    runSeq hs s = runSeq (hs.map fun p => (thread_rng, p.2)) s := by
  induction hs generalizing s with
  | nil => rfl
  | cons p rest ih =>
    obtain ⟨h, op⟩ := p
    cases h
    simp only [List.map_cons, runSeq]
    cases hop : runOp thread_rng op s with
    | error p => rfl
    | ok r =>
      obtain ⟨o, s1⟩ := r
      dsimp only
      rw [ih s1]

/-- A wrapper returned by the initializer carries the constant threshold and
a zero byte counter. -/
theorem initThreadRngKey_threshold (entropy : List Nat) (rng : ReseedingRng)
    (e1 : List Nat) (hok : initThreadRngKey entropy = .ok (rng, e1)) :
    rng.threshold = THREAD_RNG_RESEED_THRESHOLD ∧ rng.bytesGenerated = 0 := by
  unfold initThreadRngKey at hok
  cases hfr : Core.from_rng entropy with
  | none => rw [hfr] at hok; exact absurd hok (by simp)
  | some p =>
    obtain ⟨c, e2⟩ := p
    rw [hfr] at hok
    simp only [Except.ok.injEq, Prod.mk.injEq] at hok
    obtain ⟨h1, _⟩ := hok
    subst h1
    exact ⟨rfl, rfl⟩

/-- Characterization of a successful lazy lookup: the resulting state caches
the returned wrapper, the ghost counter is bumped exactly on first access,
and an already-initialized slot is returned untouched. -/
theorem lookupOrInit_cache (s : ThreadState) (rng : ReseedingRng)
    (s1 : ThreadState) (hlk : lookupOrInit s = .ok (rng, s1)) :
    s1.cache = some rng ∧
    s1.initCount = (if s.cache.isSome then s.initCount else s.initCount + 1) ∧
    s1.destroyed = s.destroyed ∧
    (∀ r, s.cache = some r → rng = r ∧ s1 = s) := by
  unfold lookupOrInit at hlk
  cases hcache : s.cache with
  | some r =>
    rw [hcache] at hlk
    simp only [Except.ok.injEq, Prod.mk.injEq] at hlk
    obtain ⟨h1, h2⟩ := hlk
    refine ⟨?_, ?_, ?_, ?_⟩
    · rw [← h2, hcache, h1]
    · rw [← h2]; simp
    · rw [← h2]
    · intro r2 hr2
      simp only [Option.some.injEq] at hr2
      exact ⟨h1.symm.trans hr2, h2.symm⟩
  | none =>
    rw [hcache] at hlk
    cases hik : initThreadRngKey s.entropy with
    | error msg => rw [hik] at hlk; exact absurd hlk (by simp)
    | ok p =>
      obtain ⟨rng2, e1⟩ := p
      rw [hik] at hlk
      simp only [Except.ok.injEq, Prod.mk.injEq] at hlk
      obtain ⟨h1, h2⟩ := hlk
      refine ⟨?_, ?_, ?_, ?_⟩
      · rw [← h2, h1]
      · rw [← h2]; simp
      · rw [← h2]
      · intro r2 hr2
        exact absurd hr2 (by simp)

/-- The threshold of the wrapper produced by a successful lookup is the
constant, provided any previously cached wrapper carried it. -/
theorem lookupOrInit_threshold (s : ThreadState) (rng : ReseedingRng)
    (s1 : ThreadState) (hs : thresholdOk s)
    (hlk : lookupOrInit s = .ok (rng, s1)) :
    rng.threshold = THREAD_RNG_RESEED_THRESHOLD := by
  unfold lookupOrInit at hlk
  cases hcache : s.cache with
  | some r =>
    rw [hcache] at hlk
    simp only [Except.ok.injEq, Prod.mk.injEq] at hlk
    obtain ⟨h1, _⟩ := hlk
    subst h1
    exact hs r hcache
  | none =>
    rw [hcache] at hlk
    cases hik : initThreadRngKey s.entropy with
    | error msg => rw [hik] at hlk; exact absurd hlk (by simp)
    | ok p =>
      obtain ⟨rng2, e1⟩ := p
      rw [hik] at hlk
      simp only [Except.ok.injEq, Prod.mk.injEq] at hlk
      obtain ⟨h1, _⟩ := hlk
      subst h1
      exact (initThreadRngKey_threshold s.entropy rng2 e1 hik).1

/-- The lazy lookup succeeds whenever the slot is already initialized or
the entropy provider has a seed left. -/
theorem lookupOrInit_isOk (s : ThreadState)
    (hinit : s.cache.isSome = true ∨ s.entropy ≠ []) :
    ∃ rng s1, lookupOrInit s = .ok (rng, s1) := by
  cases hcache : s.cache with
  | some rng =>
    exact ⟨rng, s, by unfold lookupOrInit; rw [hcache]⟩
  | none =>
    have hne : s.entropy ≠ [] := by
      rcases hinit with hsome | hne
      · rw [hcache] at hsome; exact absurd hsome (by simp)
      · exact hne
    cases hE : s.entropy with
    | nil => exact absurd hE hne
    | cons a l =>
      refine ⟨ReseedingRng.new (Core.fromSeed a) THREAD_RNG_RESEED_THRESHOLD,
        ⟨l, some (ReseedingRng.new (Core.fromSeed a)
          THREAD_RNG_RESEED_THRESHOLD), s.destroyed, s.initCount + 1⟩, ?_⟩
      unfold lookupOrInit initThreadRngKey Core.from_rng
      rw [hcache, hE]
      rfl

/-- Characterization of a successful infallible generation step: the thread
was not in teardown, a lookup succeeded, the wrapper generated, and the
updated wrapper was stored back. -/
theorem generateVia_ok (s : ThreadState) (n : Nat) (bs : List Nat)
    (s1 : ThreadState) (hrun : generateVia s n = .ok (bs, s1)) :
    ∃ rng s2 rng1 e1 k,
      lookupOrInit s = .ok (rng, s2) ∧ s.destroyed = false ∧
      rng.generate s2.entropy n = some (bs, rng1, e1, k) ∧
      s1 = ⟨e1, some rng1, s2.destroyed, s2.initCount⟩ := by
  unfold generateVia withKey at hrun
  by_cases hd : s.destroyed = true
  · rw [if_pos hd] at hrun; exact absurd hrun (by simp)
  · rw [if_neg hd] at hrun
    have hd2 : s.destroyed = false := by
      revert hd; cases s.destroyed <;> simp
    cases hlk : lookupOrInit s with
    | error p => rw [hlk] at hrun; exact absurd hrun (by simp)
    | ok r =>
      obtain ⟨rng, s2⟩ := r
      rw [hlk] at hrun
      dsimp only at hrun
      cases hg : rng.generate s2.entropy n with
      | none => rw [hg] at hrun; exact absurd hrun (by simp)
      | some r2 =>
        obtain ⟨bs2, rng1, e1, k⟩ := r2
        rw [hg] at hrun
        simp only [Except.ok.injEq, Prod.mk.injEq] at hrun
        obtain ⟨h1, h2⟩ := hrun
        refine ⟨rng, s2, rng1, e1, k, ?_, ?_, ?_, ?_⟩
        · rfl
        · exact hd2
        · rw [hg, h1]
        · exact h2.symm

/-- Every successful generation request factors through `generateVia`. -/
theorem runOp_ok (h : ThreadRng) (op : Op) (s : ThreadState) (o : Output)
    (s1 : ThreadState) (hrun : runOp h op s = .ok (o, s1)) :
    ∃ n bs, generateVia s n = .ok (bs, s1) := by
  cases op with
  | u32 =>
    unfold runOp ThreadRng.next_u32 at hrun
    cases hg : generateVia s 4 with
    | error p => rw [hg] at hrun; exact absurd hrun (by simp)
    | ok r =>
      obtain ⟨bs, s2⟩ := r
      rw [hg] at hrun
      simp only [Except.ok.injEq, Prod.mk.injEq] at hrun
      exact ⟨4, bs, by rw [hg, hrun.2]⟩
  | u64 =>
    unfold runOp ThreadRng.next_u64 at hrun
    cases hg : generateVia s 8 with
    | error p => rw [hg] at hrun; exact absurd hrun (by simp)
    | ok r =>
      obtain ⟨bs, s2⟩ := r
      rw [hg] at hrun
      simp only [Except.ok.injEq, Prod.mk.injEq] at hrun
      exact ⟨8, bs, by rw [hg, hrun.2]⟩
  | fill m =>
    unfold runOp ThreadRng.fill_bytes at hrun
    dsimp only at hrun
    cases hg : generateVia s m with
    | error p => rw [hg] at hrun; exact absurd hrun (by simp)
    | ok r =>
      obtain ⟨bs, s2⟩ := r
      rw [hg] at hrun
      simp only [Except.ok.injEq, Prod.mk.injEq] at hrun
      exact ⟨m, bs, by rw [hg, hrun.2]⟩

/-- One successful generation request preserves the fixed-threshold
property of the cached wrapper. -/
theorem runOp_thresholdOk (h : ThreadRng) (op : Op) (s : ThreadState)
    (o : Output) (s1 : ThreadState) (hs : thresholdOk s)
    (hrun : runOp h op s = .ok (o, s1)) : thresholdOk s1 := by
  obtain ⟨n, bs, hg⟩ := runOp_ok h op s o s1 hrun
  obtain ⟨rng, s2, rng1, e1, k, hlk, _, hgen, hs1⟩ := generateVia_ok s n bs s1 hg
  intro r hr
  rw [hs1] at hr
  simp only [Option.some.injEq] at hr
  subst hr
  rw [(ReseedingRng.generate_ok rng s2.entropy n bs rng1 e1 k hgen).2]
  exact lookupOrInit_threshold s rng s2 hs hlk

/-- A successful generation sequence preserves the fixed-threshold
property of the cached wrapper. -/
theorem runSeq_thresholdOk (ops : List (ThreadRng × Op)) (s : ThreadState)
    (hs : thresholdOk s) (outs : List Output) (s1 : ThreadState)
    (hrun : runSeq ops s = .ok (outs, s1)) : thresholdOk s1 := by
  induction ops generalizing s outs with
  | nil =>
    unfold runSeq at hrun
    simp only [Except.ok.injEq, Prod.mk.injEq] at hrun
    rw [← hrun.2]
    exact hs
  | cons p rest ih =>
    obtain ⟨h, op⟩ := p
    unfold runSeq at hrun
    cases hop : runOp h op s with
    | error q => rw [hop] at hrun; exact absurd hrun (by simp)
    | ok r =>
      obtain ⟨o, s2⟩ := r
      rw [hop] at hrun
      dsimp only at hrun
      cases hrest : runSeq rest s2 with
      | error q => rw [hrest] at hrun; exact absurd hrun (by simp)
      | ok r2 =>
        obtain ⟨os, s3⟩ := r2
        rw [hrest] at hrun
        simp only [Except.ok.injEq, Prod.mk.injEq] at hrun
        rw [hrun.2] at hrest
        exact ih s2 (runOp_thresholdOk h op s o s2 hs hop) os hrest

/-- One successful generation request establishes the initialized state:
afterwards the slot is filled and the initializer has run exactly once. -/
theorem runOp_initInv (h : ThreadRng) (op : Op) (s : ThreadState)
    (o : Output) (s1 : ThreadState) (hs : initInv s)
    (hrun : runOp h op s = .ok (o, s1)) :
    initInv s1 ∧ s1.cache.isSome = true ∧ s1.initCount = 1 := by
  obtain ⟨n, bs, hg⟩ := runOp_ok h op s o s1 hrun
  obtain ⟨rng, s2, rng1, e1, k, hlk, _, hgen, hs1⟩ := generateVia_ok s n bs s1 hg
  obtain ⟨_, hcount2, _, _⟩ := lookupOrInit_cache s rng s2 hlk
  have hcount1 : s1.initCount = s2.initCount := by rw [hs1]
  have hone : s2.initCount = 1 := by
    rw [hcount2]
    cases hsome : s.cache.isSome with
    | false =>
      have : ¬s.initCount = 1 := fun hone2 => by
        rw [hs.1.mpr hone2] at hsome
        exact absurd hsome (by simp)
      have hle : s.initCount ≤ 1 := hs.2
      have h0 : s.initCount = 0 := by omega
      simp [hsome, h0]
    | true =>
      simp [hsome, hs.1.mp hsome]
  have hcache1 : s1.cache.isSome = true := by rw [hs1]; rfl
  refine ⟨⟨?_, ?_⟩, hcache1, by rw [hcount1, hone]⟩
  · rw [hcache1, hcount1, hone]
    simp
  · rw [hcount1, hone]

/-- A successful generation sequence preserves the ghost-counter invariant,
and a nonempty one leaves the slot initialized with the initializer having
run exactly once. -/
theorem runSeq_initInv (ops : List (ThreadRng × Op)) (s : ThreadState)
    (hs : initInv s) (outs : List Output) (s1 : ThreadState)
    (hrun : runSeq ops s = .ok (outs, s1)) :
    initInv s1 ∧ (ops ≠ [] → s1.cache.isSome = true ∧ s1.initCount = 1) := by
  induction ops generalizing s outs with
  | nil =>
    unfold runSeq at hrun
    simp only [Except.ok.injEq, Prod.mk.injEq] at hrun
    rw [← hrun.2]
    exact ⟨hs, fun hne => absurd rfl hne⟩
  | cons p rest ih =>
    obtain ⟨h, op⟩ := p
    unfold runSeq at hrun
    cases hop : runOp h op s with
    | error q => rw [hop] at hrun; exact absurd hrun (by simp)
    | ok r =>
      obtain ⟨o, s2⟩ := r
      rw [hop] at hrun
      dsimp only at hrun
      cases hrest : runSeq rest s2 with
      | error q => rw [hrest] at hrun; exact absurd hrun (by simp)
      | ok r2 =>
        obtain ⟨os, s3⟩ := r2
        rw [hrest] at hrun
        simp only [Except.ok.injEq, Prod.mk.injEq] at hrun
        obtain ⟨hinv2, hsome2, hone2⟩ := runOp_initInv h op s o s2 hs hop
        rw [hrun.2] at hrest
        obtain ⟨hinv3, hne3⟩ := ih s2 hinv2 os hrest
        refine ⟨hinv3, fun _ => ?_⟩
        cases hrest2 : rest with
        | nil =>
          rw [hrest2] at hrest
          unfold runSeq at hrest
          simp only [Except.ok.injEq, Prod.mk.injEq] at hrest
          rw [← hrest.2]
          exact ⟨hsome2, hone2⟩
        | cons q qs =>
          exact hne3 (by simp [hrest2])

/-! ## Claim theorems -/

/-- C1: once at least the threshold number of bytes has been generated since
the last reseed, the very next generation request first reseeds the Core
from the entropy provider (exactly one reseed, drawing the provider's next
seed) and resets the byte counter before producing output (the new counter
holds only this call's bytes); while the counter is strictly below the
threshold no reseed occurs (zero reseeds, the entropy stream is untouched
and the Core merely advances). -/
theorem reseed_policy (rng : ReseedingRng) (entropy : List Nat) (n : Nat) :
    (rng.bytesGenerated < rng.threshold →
      rng.generate entropy n =
        some ((rng.core.genBytes n).1,
          ⟨(rng.core.genBytes n).2, rng.threshold, rng.bytesGenerated + n⟩,
          entropy, 0)) ∧
    (rng.threshold ≤ rng.bytesGenerated →
      ∀ seed rest, entropy = seed :: rest →
        rng.generate entropy n =
          some (((Core.fromSeed seed).genBytes n).1,
            ⟨((Core.fromSeed seed).genBytes n).2, rng.threshold, n⟩,
            rest, 1)) := by
  constructor
  · intro hlt
    unfold ReseedingRng.generate
    rw [if_neg (Nat.not_le.mpr hlt)]
  · intro hge seed rest hent
    subst hent
    unfold ReseedingRng.generate
    rw [if_pos hge]
    rfl

/-- Witness for C1: a wrapper at exactly the threshold reseeds from the
provider's next seed and resets its counter; one strictly below does not. -/
theorem reseed_policy_witness :
    ReseedingRng.generate ⟨⟨5⟩, THREAD_RNG_RESEED_THRESHOLD, 65536⟩ [7, 9] 2 =
      some (((Core.fromSeed 7).genBytes 2).1,
        ⟨((Core.fromSeed 7).genBytes 2).2, THREAD_RNG_RESEED_THRESHOLD, 2⟩,
        [9], 1) ∧
    ReseedingRng.generate ⟨⟨5⟩, THREAD_RNG_RESEED_THRESHOLD, 65535⟩ [7, 9] 2 =
      some (((Core.mk 5).genBytes 2).1,
        ⟨((Core.mk 5).genBytes 2).2, THREAD_RNG_RESEED_THRESHOLD, 65535 + 2⟩,
        [7, 9], 0) :=
  ⟨(reseed_policy ⟨⟨5⟩, THREAD_RNG_RESEED_THRESHOLD, 65536⟩ [7, 9] 2).2
      (by decide) 7 [9] rfl,
    (reseed_policy ⟨⟨5⟩, THREAD_RNG_RESEED_THRESHOLD, 65535⟩ [7, 9] 2).1
      (by decide)⟩

/-- C2: when seeding the Core from the entropy provider fails on first
access, the thread-local initializer panics with the descriptive
`could not initialize thread_rng` diagnostic and never returns a generator
value, and a first generation call on such a thread aborts with that panic
instead of producing output from a degraded generator. -/
theorem init_failure_aborts (entropy : List Nat)
    (hfail : Core.from_rng entropy = none) :
    initThreadRngKey entropy = .error threadRngInitMsg ∧
    (∀ rng e1, initThreadRngKey entropy ≠ .ok (rng, e1)) ∧
    (∀ s : ThreadState, s.cache = none → s.destroyed = false →
      s.entropy = entropy →
      thread_rng.next_u32 s = .error (.initFailure threadRngInitMsg)) := by
  have hinit : initThreadRngKey entropy = .error threadRngInitMsg := by
    unfold initThreadRngKey
    rw [hfail]
  refine ⟨hinit, ?_, ?_⟩
  · intro rng e1 hcontra
    rw [hinit] at hcontra
    exact absurd hcontra (by simp)
  · intro s hc hd he
    simp [ThreadRng.next_u32, generateVia, withKey, lookupOrInit,
      hd, hc, he, hinit]

/-- Witness for C2: with an exhausted entropy provider and an uninitialized
slot, the first generation call panics with the initializer diagnostic. -/
theorem init_failure_aborts_witness :
    thread_rng.next_u32 ⟨[], none, false, 0⟩ =
      .error (.initFailure threadRngInitMsg) :=
  (init_failure_aborts [] rfl).2.2 ⟨[], none, false, 0⟩ rfl rfl rfl

/-- C4: when thread-local storage is being torn down, every infallible
generation operation (`next_u32`, `next_u64`, `fill_bytes`) panics with the
teardown access panic; none of them returns a value and none swallows the
failure. -/
theorem infallible_ops_abort_on_teardown (h : ThreadRng) (s : ThreadState)
    (n : Nat) (hd : s.destroyed = true) :
    h.next_u32 s = .error .accessDuringTeardown ∧
    h.next_u64 s = .error .accessDuringTeardown ∧
    h.fill_bytes s n = .error .accessDuringTeardown := by
  refine ⟨?_, ?_, ?_⟩ <;>
    simp [ThreadRng.next_u32, ThreadRng.next_u64, ThreadRng.fill_bytes,
      generateVia, withKey, hd]

/-- Witness for C4: on a thread whose storage is being destroyed, all three
infallible operations panic. -/
theorem infallible_ops_abort_on_teardown_witness :
    thread_rng.next_u32 ⟨[4], none, true, 0⟩ = .error .accessDuringTeardown ∧
    thread_rng.next_u64 ⟨[4], none, true, 0⟩ = .error .accessDuringTeardown ∧
    thread_rng.fill_bytes ⟨[4], none, true, 0⟩ 16 =
      .error .accessDuringTeardown :=
  infallible_ops_abort_on_teardown thread_rng ⟨[4], none, true, 0⟩ 16 rfl

/-- C7: generation behaves identically through any two independently
constructed handles on one thread: each single operation gives the same
result whichever handle it goes through, and an interleaved sequence of
calls across many handles produces the same output stream and the same
final thread state as the same sequence through the one handle
`thread_rng`. -/
theorem handles_share_stream :
    (∀ (h1 h2 : ThreadRng) (op : Op) (s : ThreadState),
      runOp h1 op s = runOp h2 op s) ∧
    (∀ (hs : List (ThreadRng × Op)) (s : ThreadState),
      runSeq hs s = runSeq (hs.map fun p => (thread_rng, p.2)) s) :=
  ⟨fun h1 h2 op s => by cases h1; cases h2; rfl,
    fun hs s => runSeq_map_thread_rng hs s⟩

/-- C8: constructing a handle always succeeds, touches no thread state (in
particular it never triggers initialization of the cached wrapper, whatever
the entropy stream or slot contents), and the handle is a zero-data value:
all handles are equal. -/
theorem thread_rng_stateless :
    (∀ s : ThreadState, thread_rng_run s = (thread_rng, s)) ∧
    (∀ s : ThreadState, (thread_rng_run s).2.cache = s.cache) ∧
    (∀ h1 h2 : ThreadRng, h1 = h2) :=
  ⟨fun _ => rfl, fun _ => rfl, fun h1 h2 => by cases h1; cases h2; rfl⟩

/-- C10: `ThreadRng::default()` returns exactly the value of `thread_rng()`,
and both constructors are deterministic: every handle value is equal to
every other. -/
theorem default_eq_thread_rng :
    ThreadRng.default = thread_rng ∧ (∀ h1 h2 : ThreadRng, h1 = h2) :=
  ⟨rfl, fun h1 h2 => by cases h1; cases h2; rfl⟩

/-- C3: provided the thread can produce a generator at all (the slot is
initialized or the entropy provider has seed material, so the initializer
panic of C2 is not in play), every `try_fill_bytes` call either succeeds
with the buffer completely filled (the produced byte list has exactly the
requested length), or fails with the catchable generation error; and when
the thread-local lookup fails during teardown the call returns the
catchable lookup error — an `Err` value distinct from the generation
error, not a panic. -/
theorem try_fill_bytes_outcomes (h : ThreadRng) (s : ThreadState) (n : Nat)
    (hinit : s.cache.isSome = true ∨ s.entropy ≠ []) :
    (s.destroyed = true → h.try_fill_bytes s n = .err .lookupFailure s) ∧
    (s.destroyed = false →
      (∃ bs s1, h.try_fill_bytes s n = .ok bs s1 ∧ bs.length = n) ∨
      (∃ s1, h.try_fill_bytes s n = .err .reseedFailure s1)) := by
  constructor
  · intro hd
    unfold ThreadRng.try_fill_bytes
    rw [if_pos hd]
  · intro hd
    obtain ⟨rng, s1, hlk⟩ := lookupOrInit_isOk s hinit
    unfold ThreadRng.try_fill_bytes
    rw [if_neg (by rw [hd]; exact Bool.false_ne_true), hlk]
    dsimp only
    cases hg : rng.generate s1.entropy n with
    | none => exact Or.inr ⟨s1, rfl⟩
    | some r =>
      obtain ⟨bs, rng1, e1, k⟩ := r
      exact Or.inl ⟨bs, ⟨e1, some rng1, s1.destroyed, s1.initCount⟩, rfl,
        (ReseedingRng.generate_ok rng s1.entropy n bs rng1 e1 k hg).1⟩

/-- Witness for C3: on a live thread with one seed available, a 3-byte
fallible fill yields a fully-filled buffer or a catchable generation
error; on a thread in teardown it yields the catchable lookup error. -/
theorem try_fill_bytes_outcomes_witness :
    ((∃ bs s1, thread_rng.try_fill_bytes ⟨[5], none, false, 0⟩ 3 =
        .ok bs s1 ∧ bs.length = 3) ∨
      (∃ s1, thread_rng.try_fill_bytes ⟨[5], none, false, 0⟩ 3 =
        .err .reseedFailure s1)) ∧
    thread_rng.try_fill_bytes ⟨[5], none, true, 0⟩ 3 =
      .err .lookupFailure ⟨[5], none, true, 0⟩ :=
  ⟨(try_fill_bytes_outcomes thread_rng ⟨[5], none, false, 0⟩ 3
      (Or.inr (by decide))).2 rfl,
    (try_fill_bytes_outcomes thread_rng ⟨[5], none, true, 0⟩ 3
      (Or.inr (by decide))).1 rfl⟩

/-- C5: the reseed threshold is the fixed compile-time constant 65536 bytes
(64 KiB); the initializer always builds the cached wrapper with exactly
this threshold, and over any successful sequence of generation calls
starting from an uninitialized thread the cached wrapper always carries
this same threshold — no operation of the public surface changes it. -/
theorem threshold_fixed_constant :
    THREAD_RNG_RESEED_THRESHOLD = 65536 ∧
    (∀ entropy rng e1, initThreadRngKey entropy = .ok (rng, e1) →
      rng.threshold = THREAD_RNG_RESEED_THRESHOLD) ∧
    (∀ (ops : List (ThreadRng × Op)) (s0 : ThreadState) (outs : List Output)
      (s1 : ThreadState) (r : ReseedingRng), s0.cache = none →
      runSeq ops s0 = .ok (outs, s1) → s1.cache = some r →
      r.threshold = THREAD_RNG_RESEED_THRESHOLD) := by
  refine ⟨rfl, ?_, ?_⟩
  · intro entropy rng e1 hok
    exact (initThreadRngKey_threshold entropy rng e1 hok).1
  · intro ops s0 outs s1 r h0 hrun hr
    have hs0 : thresholdOk s0 := by
      intro r2 hr2
      rw [h0] at hr2
      exact absurd hr2 (by simp)
    exact runSeq_thresholdOk ops s0 hs0 outs s1 hrun r hr

/-- Witness for C5: a concrete run of one `next_u32` call from an
uninitialized thread leaves a cached wrapper whose threshold is the
constant. -/
theorem threshold_fixed_constant_witness :
    (⟨⟨7⟩, 65536, 4⟩ : ReseedingRng).threshold = THREAD_RNG_RESEED_THRESHOLD :=
  threshold_fixed_constant.2.2 [(thread_rng, .u32)] ⟨[3], none, false, 0⟩
    [.word 100992003] ⟨[], some ⟨⟨7⟩, 65536, 4⟩, false, 1⟩ ⟨⟨7⟩, 65536, 4⟩
    rfl rfl rfl

/-- C6: over any successful sequence of generation calls on one thread
starting uninitialized, the cached wrapper is constructed at most once
(ghost initializer counter stays ≤ 1), the slot is initialized exactly
when the initializer has run once, a nonempty sequence leaves the slot
initialized by its first call, and a call finding an initialized slot
returns the cached wrapper itself unchanged — it never re-runs
initialization. -/
theorem wrapper_initialized_once (ops : List (ThreadRng × Op))
    (s0 : ThreadState) (h0 : s0.cache = none) (hc : s0.initCount = 0)
    (outs : List Output) (s1 : ThreadState)
    (hrun : runSeq ops s0 = .ok (outs, s1)) :
    s1.initCount ≤ 1 ∧ (s1.cache.isSome = true ↔ s1.initCount = 1) ∧
    (ops ≠ [] → s1.cache.isSome = true ∧ s1.initCount = 1) ∧
    (∀ (s : ThreadState) (r : ReseedingRng), s.cache = some r →
      lookupOrInit s = .ok (r, s)) := by
  have hinv : initInv s0 := by
    constructor
    · rw [h0, hc]; simp
    · rw [hc]; exact Nat.zero_le 1
  obtain ⟨⟨hiff, hle⟩, hne⟩ := runSeq_initInv ops s0 hinv outs s1 hrun
  refine ⟨hle, hiff, hne, ?_⟩
  intro s r hr
  unfold lookupOrInit
  rw [hr]

/-- Witness for C6: after two calls from an uninitialized thread, the
initializer has run exactly once and the slot is initialized. -/
theorem wrapper_initialized_once_witness :
    (⟨[], some ⟨⟨15⟩, 65536, 12⟩, false, 1⟩ : ThreadState).initCount ≤ 1 ∧
    (⟨[], some ⟨⟨15⟩, 65536, 12⟩, false, 1⟩ : ThreadState).cache.isSome
      = true := by
  have h := wrapper_initialized_once [(thread_rng, .u32), (thread_rng, .u64)]
    ⟨[3], none, false, 0⟩ rfl rfl
    [.word 100992003, .word 1012478732780767239]
    ⟨[], some ⟨⟨15⟩, 65536, 12⟩, false, 1⟩ rfl
  exact ⟨h.1, (h.2.2.1 (by simp)).1⟩

/-- C9: generation is confined to the calling thread: a successful request
on thread `t` leaves every other thread's state untouched, and its result
(output and thread `t`'s new state) depends only on thread `t`'s own state,
never on any other thread's cached wrapper — so no two threads' generation
streams share state.  (In the source this confinement is enforced by the
`PhantomData<*mut ()>` marker denying `Send` and `Sync`.) -/
theorem thread_confinement (w : Nat → ThreadState) (t : Nat) (h : ThreadRng)
    (op : Op) :
    (∀ (o : Output) (w1 : Nat → ThreadState),
      runOpOn w t h op = .ok (o, w1) → ∀ t1, t1 ≠ t → w1 t1 = w t1) ∧
    (∀ w2 : Nat → ThreadState, w2 t = w t →
      Except.map (fun r => (r.1, r.2 t)) (runOpOn w2 t h op) =
      Except.map (fun r => (r.1, r.2 t)) (runOpOn w t h op)) := by
  constructor
  · intro o w1 hrun t1 hne
    unfold runOpOn at hrun
    cases hop : runOp h op (w t) with
    | error p => rw [hop] at hrun; exact absurd hrun (by simp)
    | ok r =>
      rw [hop] at hrun
      obtain ⟨o2, s1⟩ := r
      simp only [Except.ok.injEq, Prod.mk.injEq] at hrun
      rw [← hrun.2]
      unfold updateWorld
      rw [if_neg hne]
  · intro w2 h2
    unfold runOpOn
    rw [h2]
    cases hop : runOp h op (w t) with
    | error p => rfl
    | ok r =>
      obtain ⟨o, s1⟩ := r
      simp [Except.map, updateWorld]

/-- Witness for C9: a successful `next_u32` on thread 0 leaves thread 1's
state exactly as it was. -/
theorem thread_confinement_witness :
    updateWorld (fun _ => ⟨[3], none, false, 0⟩) 0
        ⟨[], some ⟨⟨7⟩, THREAD_RNG_RESEED_THRESHOLD, 4⟩, false, 1⟩ 1 =
      ⟨[3], none, false, 0⟩ :=
  (thread_confinement (fun _ => ⟨[3], none, false, 0⟩) 0 thread_rng .u32).1
    (.word 100992003)
    (updateWorld (fun _ => ⟨[3], none, false, 0⟩) 0
      ⟨[], some ⟨⟨7⟩, THREAD_RNG_RESEED_THRESHOLD, 4⟩, false, 1⟩)
    rfl 1 (by decide)

end RandThread
